import Mathlib

/-!
Verification development for the Image-Prompt-Generator front end.

The embedding covers:
* the Prompt Generation Client `generatePromptsFromImage`
  (src/services/geminiService.ts): credential guard, effect order and the
  response-shape validation performed on the decoded JSON body;
* the Batch Orchestrator `handleGeneratePrompts` (the main application
  component): the batched, cancellable generation loop;
* the copy-all clipboard text `handleCopyAll` (src/components/PromptList.tsx).

JavaScript values that matter to the claims (JSON bodies, truthiness,
`Array.isArray`, property access yielding `undefined`) are modelled
explicitly; numbers are modelled as integers, which suffices for every
field the code inspects.
-/

namespace ImagePromptGen

/-- A decoded JSON value, as produced by `JSON.parse`.  Numbers are modelled
as integers: the code only ever tests truthiness of fields, never numeric
content. -/
inductive Json where
  | null
  | bool (b : Bool)
  | num (n : Int)
  | str (s : String)
  | arr (xs : List Json)
  | obj (fields : List (String × Json))

/-- JavaScript truthiness of a JSON value: `null`, `false`, `0` and the
empty string are falsy; every array and object is truthy. -/
def truthy : Json → Bool
  | .null => false
  | .bool b => b
  | .num n => n != 0
  | .str s => s != ""
  | .arr _ => true
  | .obj _ => true

/-- `Array.isArray`. -/
def Json.isArr : Json → Bool
  | .arr _ => true
  | _ => false

/-- JavaScript property access `j.k`: `none` models `undefined` (missing
field, or access on a non-object). -/
def getField : Json → String → Option Json
  | .obj fields, k => fields.lookup k
  | _, _ => none

/-- Truthiness of a possibly-`undefined` property access (`undefined` is
falsy). -/
def truthyO (o : Option Json) : Bool :=
  o.elim false truthy

/-- `Array.isArray` on a possibly-`undefined` property access. -/
def isArrO (o : Option Json) : Bool :=
  o.elim false Json.isArr

/-- Failure modes of the Prompt Generation Client. -/
inductive ClientError where
  | authentication
  | fileRead
  | network
  | malformedResponse
deriving DecidableEq, Repr

/-- The response-shape check of `generatePromptsFromImage`:
`jsonResponse.prompts && Array.isArray(jsonResponse.prompts) &&
jsonResponse.identifiedStyle && jsonResponse.identifiedSubject`; on success
the raw decoded body is returned, otherwise the malformed-response failure
is raised. -/
def validateResponse (j : Json) : Except ClientError Json :=
  if truthyO (getField j "prompts") && isArrO (getField j "prompts")
      && truthyO (getField j "identifiedStyle")
      && truthyO (getField j "identifiedSubject") then
    .ok j
  else
    .error .malformedResponse

/-- Observable side effects of one client call, in order. -/
inductive Effect where
  | readFile
  | networkCall
deriving DecidableEq, Repr

/-- Environment a client call runs in: whether reading the image file
succeeds, whether the network call succeeds, and the decoded JSON body of
the response (`none` models a body `JSON.parse` rejects). -/
structure ClientEnv where
  fileOk : Bool
  networkOk : Bool
  parsedBody : Option Json

/-- The Prompt Generation Client `generatePromptsFromImage`, as the pair of
its outcome and the ordered list of side effects it performed.  The code
first tests `if (!apiKey)` and throws before touching the file or the
network; then it base64-encodes the image file, issues the single network
call, parses the response body and validates its shape. -/
def generatePromptsFromImage (apiKey : String) (env : ClientEnv) :
    Except ClientError Json × List Effect :=
  if apiKey = "" then
    (.error .authentication, [])
  else if env.fileOk = false then
    (.error .fileRead, [.readFile])
  else if env.networkOk = false then
    (.error .network, [.readFile, .networkCall])
  else
    match env.parsedBody with
    | none => (.error .malformedResponse, [.readFile, .networkCall])
    | some j => (validateResponse j, [.readFile, .networkCall])

/-- The copy-all clipboard text of `handleCopyAll`:
`prompts.map((p, i) => ` the string `${i + 1}. ${p}` `).join('\n\n')`. -/
def handleCopyAll (prompts : List String) : String :=
  String.intercalate "\n\n"
    (prompts.enum.map (fun pi => toString (pi.1 + 1) ++ ". " ++ pi.2))

/-- Reference formulation of the copy-all text, following the spec's words:
map each prompt at index `i` to the numbered line for `i + 1`, join with a
blank line.  Stated with an explicit running counter. -/
def numberLinesFrom : Nat → List String → List String
  | _, [] => []
  | n, p :: ps => (toString n ++ ". " ++ p) :: numberLinesFrom (n + 1) ps

/-- Spec-side copy-all text: numbered lines starting at 1, joined by a
blank line. -/
def copyAllSpecText (prompts : List String) : String :=
  String.intercalate "\n\n" (numberLinesFrom 1 prompts)

/-- Structured result of one successful batch call, after validation:
the prompt list together with the identified style and subject. -/
structure GenResult where
  prompts : List String
  identifiedStyle : String
  identifiedSubject : String
deriving DecidableEq, Repr

/-- The arguments of one orchestrator call to the client that vary per
batch: `promptsToGenerate` and `existingPrompts` (`none` when the argument
is passed as `undefined`, which only happens on the first batch). -/
structure BatchCall where
  requestedCount : Nat
  existingPrompts : Option (List String)
deriving DecidableEq, Repr

/-- Outcome of one awaited client call, as seen by the orchestrator: either
a structured result, or a thrown error, distinguished only by whether
`err.name === 'AbortError'`. -/
inductive BatchOutcome where
  | success (res : GenResult)
  | failure (isAbortError : Bool)

/-- Terminal status of a run, read off the control path the loop takes:
breaking at the abort check (or catching an abort-shaped error) is
`Cancelled`, catching any other error is `Failed`, and finishing the loop
normally is `Succeeded`. -/
inductive RunStatus where
  | Running
  | Cancelled
  | Failed
  | Succeeded
deriving DecidableEq, Repr

/-- The mutable state a run touches, plus observation-only fields that
record what the run did: `calls` logs every client call issued (in order),
`batchPrompts` logs each successful batch's prompt list (in order), and
`lens` logs `accumulatedPrompts.length` after each append. -/
structure RunState where
  accumulatedPrompts : List String
  prompts : List String
  identifiedStyle : Option String
  identifiedSubject : Option String
  error : Option String
  calls : List BatchCall
  batchPrompts : List (List String)
  lens : List Nat
  status : RunStatus
deriving DecidableEq, Repr

/-- State at run start: `handleGeneratePrompts` clears the error, the
displayed prompts and both identified labels before entering the loop. -/
def initialRunState : RunState :=
  { accumulatedPrompts := []
    prompts := []
    identifiedStyle := none
    identifiedSubject := none
    error := none
    calls := []
    batchPrompts := []
    lens := []
    status := .Running }

/-- The single user-facing message set by the catch block for any
non-abort error. -/
def genericErrorMessage : String :=
  "Failed to generate prompts. Check your API key or try again later."

/-- The batch size computed at each iteration:
`Math.min(5, promptCount - accumulatedPrompts.length)`, over the integers
exactly as in the source. -/
def promptsToGenerate (promptCount : Nat) (accLen : Nat) : Int :=
  min 5 ((promptCount : Int) - accLen)

/-- The per-batch client arguments built at iteration `i`:
`existingPrompts = i === 0 ? undefined : accumulatedPrompts`. -/
def batchCallAt (promptCount : Nat) (i : Nat) (acc : List String) : BatchCall :=
  { requestedCount := (promptsToGenerate promptCount acc.length).toNat
    existingPrompts := if i = 0 then none else some acc }

/-- The `for` loop of `handleGeneratePrompts`, from batch index `i` with
`rb` loop iterations left.  `aborted i` is the value `signal.aborted` reads
at the check preceding batch `i`; `results i c` is what the awaited client
call for batch `i` with arguments `c` produces. -/
def loopFrom (promptCount : Nat) (aborted : Nat → Bool)
    (results : Nat → BatchCall → BatchOutcome) :
    Nat → Nat → RunState → RunState
  | _, 0, st => { st with status := .Succeeded }
  | i, rb + 1, st =>
    if aborted i then
      { st with status := .Cancelled }
    else if promptsToGenerate promptCount st.accumulatedPrompts.length ≤ 0 then
      { st with status := .Succeeded }
    else
      match results i (batchCallAt promptCount i st.accumulatedPrompts) with
      | .failure isAbort =>
        { st with
          calls := st.calls ++ [batchCallAt promptCount i st.accumulatedPrompts]
          error := if isAbort then none else some genericErrorMessage
          status := if isAbort then .Cancelled else .Failed }
      | .success res =>
        loopFrom promptCount aborted results (i + 1) rb
          { st with
            calls := st.calls ++ [batchCallAt promptCount i st.accumulatedPrompts]
            identifiedStyle :=
              if i = 0 then some res.identifiedStyle else st.identifiedStyle
            identifiedSubject :=
              if i = 0 then some res.identifiedSubject else st.identifiedSubject
            accumulatedPrompts := st.accumulatedPrompts ++ res.prompts
            prompts := st.prompts ++ res.prompts
            batchPrompts := st.batchPrompts ++ [res.prompts]
            lens := st.lens ++ [st.accumulatedPrompts.length + res.prompts.length] }

/-- `Math.ceil(promptCount / 5)` on naturals. -/
def totalBatches (promptCount : Nat) : Nat :=
  (promptCount + 4) / 5

/-- One full run of `handleGeneratePrompts` after the input guards: compute
`totalBatches`, start from the cleared state and run the loop from batch
index 0. -/
def handleGeneratePrompts (promptCount : Nat) (aborted : Nat → Bool)
    (results : Nat → BatchCall → BatchOutcome) : RunState :=
  loopFrom promptCount aborted results 0 (totalBatches promptCount) initialRunState

/-! Concrete inputs used to evaluate the model in witnesses and
counterexamples. -/

/-- A decoded body carrying all three required fields, with non-empty
strings and a prompt array. -/
def goodResponse : Json :=
  .obj [("identifiedSubject", .str "Fantasy castle"),
        ("identifiedStyle", .str "Line art"),
        ("prompts", .arr [.str "p1", .str "p2"])]

/-- A decoded body carrying all three required fields, with `prompts` an
array, but whose `identifiedSubject` is the empty string. -/
def badResponse : Json :=
  .obj [("identifiedSubject", .str ""),
        ("identifiedStyle", .str "Line art"),
        ("prompts", .arr [.str "p1"])]

/-- A client environment in which every step succeeds and the response body
decodes to `goodResponse`. -/
def demoEnv : ClientEnv :=
  { fileOk := true, networkOk := true, parsedBody := some goodResponse }

/-- A client that always succeeds and returns exactly the requested number
of prompts. -/
def exactResults : Nat → BatchCall → BatchOutcome :=
  fun _ c =>
    .success { prompts := List.replicate c.requestedCount "prompt"
               identifiedStyle := "Line art"
               identifiedSubject := "Fantasy castle" }

/-- A client that always succeeds but returns six prompts regardless of the
requested count. -/
def overDeliverResults : Nat → BatchCall → BatchOutcome :=
  fun _ _ =>
    .success { prompts := ["a", "b", "c", "d", "e", "f"]
               identifiedStyle := "s"
               identifiedSubject := "u" }

/-- A client whose first batch succeeds exactly and whose every later batch
throws a non-abort error. -/
def failSecondResults : Nat → BatchCall → BatchOutcome :=
  fun i c => if i = 0 then exactResults i c else .failure false

/-- A client that always succeeds and returns a fixed one-prompt batch. -/
def singlePromptResults : Nat → BatchCall → BatchOutcome :=
  fun _ _ =>
    .success { prompts := ["x"], identifiedStyle := "s", identifiedSubject := "u" }

/-- A cancellation signal raised during the first batch call: the check
before batch 0 reads false, every later check reads true. -/
def cancelDuringFirst : Nat → Bool :=
  fun i => decide (1 ≤ i)

/-- A signal that is never raised. -/
def neverAborted : Nat → Bool :=
  fun _ => false

/-- A signal raised before the run starts. -/
def alwaysAborted : Nat → Bool :=
  fun _ => true

/-! Theorems. -/

/-- A truthy property access is in particular a present one. -/
theorem truthyO_isSome {o : Option Json} (h : truthyO o = true) :
    o.isSome = true := by
  cases o with
  | none => simp [truthyO] at h
  | some j => rfl

/-- Claim C7 (amended): for every decoded response body, the client returns
the result if and only if `prompts` is present and an array and
`identifiedStyle` and `identifiedSubject` are present and truthy (for
schema-conformant string values: non-empty); when it does return, all three
fields are present and `prompts` is an array; and otherwise it raises
exactly the malformed-response error, never partial data. -/
theorem validateResponse_characterization (j : Json) :
    (validateResponse j = .ok j ↔
      truthyO (getField j "prompts") = true ∧
        isArrO (getField j "prompts") = true ∧
        truthyO (getField j "identifiedStyle") = true ∧
        truthyO (getField j "identifiedSubject") = true) ∧
      (validateResponse j = .ok j →
        (getField j "prompts").isSome = true ∧
          (getField j "identifiedStyle").isSome = true ∧
          (getField j "identifiedSubject").isSome = true ∧
          isArrO (getField j "prompts") = true) ∧
      (validateResponse j = .ok j ∨
        validateResponse j = .error .malformedResponse) := by
  have hchar : validateResponse j = .ok j ↔
      truthyO (getField j "prompts") = true ∧
        isArrO (getField j "prompts") = true ∧
        truthyO (getField j "identifiedStyle") = true ∧
        truthyO (getField j "identifiedSubject") = true := by
    unfold validateResponse
    split
    · rename_i hcond
      simp only [Bool.and_eq_true] at hcond
      obtain ⟨⟨⟨h1, h2⟩, h3⟩, h4⟩ := hcond
      exact iff_of_true rfl ⟨h1, h2, h3, h4⟩
    · rename_i hcond
      refine ⟨fun h => absurd h (by simp), fun h => ?_⟩
      obtain ⟨h1, h2, h3, h4⟩ := h
      rw [h1, h2, h3, h4] at hcond
      simp at hcond
  refine ⟨hchar, ?_, ?_⟩
  · intro h
    obtain ⟨h1, h2, h3, h4⟩ := hchar.mp h
    exact ⟨truthyO_isSome h1, truthyO_isSome h3, truthyO_isSome h4, h2⟩
  · unfold validateResponse
    split
    · exact Or.inl rfl
    · exact Or.inr rfl

/-- Claim C7 (counterexample): a decoded body in which all three fields are
present and `prompts` is an array, yet the client raises the
malformed-response error, because `identifiedSubject` is the (falsy) empty
string. -/
theorem validateResponse_presence_insufficient :
    (getField badResponse "identifiedSubject").isSome = true ∧
      (getField badResponse "identifiedStyle").isSome = true ∧
      (getField badResponse "prompts").isSome = true ∧
      isArrO (getField badResponse "prompts") = true ∧
      validateResponse badResponse = .error .malformedResponse :=
  ⟨rfl, rfl, rfl, rfl, rfl⟩

/-- Claim C7 (witness): on a body whose three fields are present and
truthy, the characterization yields the success case. -/
theorem validateResponse_characterization_witness :
    validateResponse goodResponse = .ok goodResponse :=
  ((validateResponse_characterization goodResponse).1).mpr ⟨rfl, rfl, rfl, rfl⟩

/-- Claim C8: an empty credential makes `generatePromptsFromImage` fail
immediately with the authentication error and perform no effect at all (no
file read, no network call); with a non-empty credential the authentication
branch is never taken. -/
theorem credential_guard (apiKey : String) (env : ClientEnv) :
    (apiKey = "" →
      generatePromptsFromImage apiKey env = (.error .authentication, [])) ∧
      (apiKey ≠ "" →
        (generatePromptsFromImage apiKey env).1 ≠ .error .authentication) := by
  constructor
  · intro h
    simp [generatePromptsFromImage, h]
  · intro h
    unfold generatePromptsFromImage
    rw [if_neg h]
    split
    · exact fun hc => nomatch hc
    · split
      · exact fun hc => nomatch hc
      · split
        · exact fun hc => nomatch hc
        · rename_i j heq
          show validateResponse j ≠ .error .authentication
          unfold validateResponse
          split
          · exact fun hc => nomatch hc
          · exact fun hc => nomatch hc

/-- Claim C8 (witness): the guard evaluated on the empty credential and on
a concrete non-empty one. -/
theorem credential_guard_witness :
    generatePromptsFromImage "" demoEnv = (.error .authentication, []) ∧
      (generatePromptsFromImage "my-key" demoEnv).1 ≠ .error .authentication :=
  ⟨(credential_guard "" demoEnv).1 rfl,
    (credential_guard "my-key" demoEnv).2 (by simp)⟩

/-- The indexed map of `handleCopyAll`, started at offset `n`, produces the
numbered lines for `n + 1`, `n + 2`, .... -/
theorem enumFrom_map_numbered (ps : List String) : ∀ n,
    (List.enumFrom n ps).map (fun pi => toString (pi.1 + 1) ++ ". " ++ pi.2) =
      numberLinesFrom (n + 1) ps := by
  induction ps with
  | nil => intro n; rfl
  | cons p ps ih =>
    intro n
    simp only [List.enumFrom, List.map, numberLinesFrom, ih]

/-- Claim C9: the copy-all operation produces, for every prompt list, the
string mapping the prompt at index `i` to its line numbered `i + 1` joined
by blank lines; in particular on `["a", "b"]` it produces the literal
string with lines `1. a` and `2. b` separated by a blank line. -/
theorem handleCopyAll_spec :
    (∀ ps, handleCopyAll ps = copyAllSpecText ps) ∧
      handleCopyAll ["a", "b"] = "1. a\n\n2. b" := by
  constructor
  · intro ps
    unfold handleCopyAll copyAllSpecText
    rw [show ps.enum = List.enumFrom 0 ps from rfl, enumFrom_map_numbered]
  · rfl

/-- Loop invariant behind Claim C2: if every successful batch returns at
most the requested number of prompts, the accumulated length never exceeds
the target, at any point of the run. -/
theorem loopFrom_length_bounded (N : Nat) (ab : Nat → Bool)
    (res : Nat → BatchCall → BatchOutcome)
    (hres : ∀ i c r, res i c = .success r → r.prompts.length ≤ c.requestedCount) :
    ∀ rb i st, st.accumulatedPrompts.length ≤ N → (∀ l ∈ st.lens, l ≤ N) →
      (loopFrom N ab res i rb st).accumulatedPrompts.length ≤ N ∧
        ∀ l ∈ (loopFrom N ab res i rb st).lens, l ≤ N := by
  intro rb
  induction rb with
  | zero =>
    intro i st h1 h2
    simp only [loopFrom]
    exact ⟨h1, h2⟩
  | succ rb ih =>
    intro i st h1 h2
    rw [loopFrom]
    split
    · exact ⟨h1, h2⟩
    · split
      · exact ⟨h1, h2⟩
      · split
        · exact ⟨h1, h2⟩
        · rename_i hptg x r heq
          have hr : r.prompts.length ≤
              (promptsToGenerate N st.accumulatedPrompts.length).toNat :=
            hres i _ r heq
          have hlen : (st.accumulatedPrompts ++ r.prompts).length ≤ N := by
            rw [List.length_append]
            unfold promptsToGenerate at hr hptg
            omega
          refine ih (i + 1) _ hlen ?_
          intro l hl
          rcases List.mem_append.mp hl with h | h
          · exact h2 l h
          · rw [List.mem_singleton] at h
            subst h
            rw [List.length_append] at hlen
            exact hlen

/-- Claim C2 (counterexample): with target count 5 and a client returning
six prompts on the only batch, the accumulated list ends with six entries,
exceeding the target. -/
theorem accumulated_exceeds_target_on_overdelivery :
    (handleGeneratePrompts 5 neverAborted
        overDeliverResults).accumulatedPrompts.length = 6 ∧
      ¬ (handleGeneratePrompts 5 neverAborted
          overDeliverResults).accumulatedPrompts.length ≤ 5 :=
  ⟨rfl, by decide⟩

/-- Claim C2 (amended): provided every successful client call returns at
most the requested number of prompts, `accumulatedPrompts.length` stays at
or below the target count at every point during the run. -/
theorem accumulated_length_bounded (N : Nat) (ab : Nat → Bool)
    (res : Nat → BatchCall → BatchOutcome)
    (hres : ∀ i c r, res i c = .success r → r.prompts.length ≤ c.requestedCount) :
    (handleGeneratePrompts N ab res).accumulatedPrompts.length ≤ N ∧
      ∀ l ∈ (handleGeneratePrompts N ab res).lens, l ≤ N := by
  unfold handleGeneratePrompts
  exact loopFrom_length_bounded N ab res hres (totalBatches N) 0 initialRunState
    (by simp [initialRunState]) (by simp [initialRunState])

/-- Claim C2 (witness): the amended bound evaluated on a concrete
12-prompt run whose client returns exactly what is requested. -/
theorem accumulated_length_bounded_witness :
    (handleGeneratePrompts 12 neverAborted
        exactResults).accumulatedPrompts.length ≤ 12 :=
  (accumulated_length_bounded 12 neverAborted exactResults
    (fun i c r h => by
      simp only [exactResults] at h
      injection h with h
      subst h
      simp)).1

/-- Loop shape behind Claim C1: when the signal is never raised and every
call succeeds with exactly the requested number of prompts, a loop entered
with exactly `5 * rb` prompts missing performs `rb` calls of five prompts
each and ends full. -/
theorem loopFrom_exact_success (N : Nat) (ab : Nat → Bool)
    (res : Nat → BatchCall → BatchOutcome)
    (hab : ∀ i, ab i = false)
    (hres : ∀ i c, ∃ r, res i c = .success r ∧ r.prompts.length = c.requestedCount) :
    ∀ rb i st, st.accumulatedPrompts.length + 5 * rb = N →
      (loopFrom N ab res i rb st).accumulatedPrompts.length = N ∧
        (loopFrom N ab res i rb st).calls.map (fun c => c.requestedCount) =
          st.calls.map (fun c => c.requestedCount) ++ List.replicate rb 5 ∧
        (loopFrom N ab res i rb st).status = .Succeeded := by
  intro rb
  induction rb with
  | zero =>
    intro i st hlen
    simp only [loopFrom]
    refine ⟨by omega, by simp, by trivial⟩
  | succ rb ih =>
    intro i st hlen
    rw [loopFrom]
    rw [if_neg (by simp [hab i])]
    rw [if_neg (by unfold promptsToGenerate; omega)]
    obtain ⟨r, hr, hrlen⟩ := hres i (batchCallAt N i st.accumulatedPrompts)
    rw [hr]
    simp only [batchCallAt] at hrlen
    have hc5 : (promptsToGenerate N st.accumulatedPrompts.length).toNat = 5 := by
      unfold promptsToGenerate
      omega
    have hlen' : r.prompts.length = 5 := by rw [hrlen, hc5]
    obtain ⟨e1, e2, e3⟩ := ih (i + 1)
      { st with
        calls := st.calls ++ [batchCallAt N i st.accumulatedPrompts]
        identifiedStyle :=
          if i = 0 then some r.identifiedStyle else st.identifiedStyle
        identifiedSubject :=
          if i = 0 then some r.identifiedSubject else st.identifiedSubject
        accumulatedPrompts := st.accumulatedPrompts ++ r.prompts
        prompts := st.prompts ++ r.prompts
        batchPrompts := st.batchPrompts ++ [r.prompts]
        lens := st.lens ++ [st.accumulatedPrompts.length + r.prompts.length] }
      (by simp only [List.length_append, hlen']; omega)
    refine ⟨e1, ?_, e3⟩
    rw [e2]
    simp only [List.map_append, List.map, List.replicate_succ, batchCallAt, hc5,
      List.append_assoc, List.singleton_append]

/-- Claim C1: for every target count `N` in `{5, 10, ..., 50}`, with no
cancellation and every client call returning exactly the requested number
of prompts, the run issues exactly `ceil(N / 5)` calls, the `j`-th call
requests `min(5, N - accumulated.length)` prompts (which, before call `j`,
is `min(5, N - 5 * j)`), and it terminates with the accumulated list full. -/
theorem handleGeneratePrompts_full_success (N : Nat) (ab : Nat → Bool)
    (res : Nat → BatchCall → BatchOutcome)
    (h5 : 5 ≤ N) (h50 : N ≤ 50) (hdvd : 5 ∣ N)
    (hab : ∀ i, ab i = false)
    (hres : ∀ i c, ∃ r, res i c = .success r ∧ r.prompts.length = c.requestedCount) :
    (handleGeneratePrompts N ab res).calls.length = (N + 4) / 5 ∧
      (handleGeneratePrompts N ab res).accumulatedPrompts.length = N ∧
      (handleGeneratePrompts N ab res).status = .Succeeded ∧
      ∀ j (h : j < (handleGeneratePrompts N ab res).calls.length),
        ((handleGeneratePrompts N ab res).calls[j]).requestedCount =
          min 5 (N - 5 * j) := by
  obtain ⟨e1, e2, e3⟩ := loopFrom_exact_success N ab res hab hres
    (totalBatches N) 0 initialRunState
    (by simp only [initialRunState]; unfold totalBatches; simp; omega)
  have hmap : (handleGeneratePrompts N ab res).calls.map
      (fun c => c.requestedCount) = List.replicate (totalBatches N) 5 := by
    unfold handleGeneratePrompts
    rw [e2]
    simp [initialRunState]
  have hcount : (handleGeneratePrompts N ab res).calls.length = totalBatches N := by
    have := congrArg List.length hmap
    simpa using this
  refine ⟨hcount, e1, e3, ?_⟩
  intro j h
  have hlt : j < ((handleGeneratePrompts N ab res).calls.map
      (fun c => c.requestedCount)).length := by simpa using h
  have hj : ((handleGeneratePrompts N ab res).calls.map
      (fun c => c.requestedCount))[j] = 5 := by
    simp only [hmap, List.getElem_replicate]
  rw [List.getElem_map] at hj
  rw [hj]
  have hjt : j < totalBatches N := by rw [← hcount]; exact h
  unfold totalBatches at hjt
  omega

/-- Claim C1 (witness): the full-success shape evaluated at target count 10
with the exactly-delivering client. -/
theorem handleGeneratePrompts_full_success_witness :
    (handleGeneratePrompts 10 neverAborted exactResults).calls.length = 2 ∧
      (handleGeneratePrompts 10 neverAborted
          exactResults).accumulatedPrompts.length = 10 := by
  obtain ⟨e1, e2, e3, e4⟩ := handleGeneratePrompts_full_success 10 neverAborted
    exactResults (by norm_num) (by norm_num) (by norm_num) (fun i => rfl)
    (fun i c => ⟨_, rfl, by simp [exactResults]⟩)
  exact ⟨e1.trans (by norm_num), e2⟩

/-- Loop fact behind Claim C4: from batch index 1 onwards, the loop never
writes `identifiedStyle` or `identifiedSubject`. -/
theorem loopFrom_labels_frozen (N : Nat) (ab : Nat → Bool)
    (res : Nat → BatchCall → BatchOutcome) :
    ∀ rb i st, 1 ≤ i →
      (loopFrom N ab res i rb st).identifiedStyle = st.identifiedStyle ∧
        (loopFrom N ab res i rb st).identifiedSubject = st.identifiedSubject := by
  intro rb
  induction rb with
  | zero =>
    intro i st hi
    simp [loopFrom]
  | succ rb ih =>
    intro i st hi
    rw [loopFrom]
    split
    · exact ⟨rfl, rfl⟩
    · split
      · exact ⟨rfl, rfl⟩
      · split
        · exact ⟨rfl, rfl⟩
        · rename_i x r heq
          have hne : ¬ i = 0 := by omega
          rw [if_neg hne, if_neg hne]
          exact ih (i + 1) _ (by omega)

/-- Claim C4: the identified style and subject are reset at run start and
fully determined by batch 0 alone: they are the labels of batch 0's result
when batch 0 is issued and succeeds, and unset otherwise; results of later
batches never change them, and the two are always both unset or both set. -/
theorem identified_labels_first_batch_only (N : Nat) (ab : Nat → Bool)
    (res : Nat → BatchCall → BatchOutcome) :
    ((handleGeneratePrompts N ab res).identifiedStyle,
        (handleGeneratePrompts N ab res).identifiedSubject) =
      (if ab 0 = true ∨ N = 0 then (none, none)
        else
          match res 0 (batchCallAt N 0 []) with
          | .success r => (some r.identifiedStyle, some r.identifiedSubject)
          | .failure _ => (none, none)) ∧
      ((handleGeneratePrompts N ab res).identifiedStyle = none ↔
        (handleGeneratePrompts N ab res).identifiedSubject = none) := by
  have hmain : ((handleGeneratePrompts N ab res).identifiedStyle,
      (handleGeneratePrompts N ab res).identifiedSubject) =
      (if ab 0 = true ∨ N = 0 then (none, none)
        else
          match res 0 (batchCallAt N 0 []) with
          | .success r => (some r.identifiedStyle, some r.identifiedSubject)
          | .failure _ => (none, none)) := by
    unfold handleGeneratePrompts
    by_cases hN : N = 0
    · subst hN
      rw [if_pos (Or.inr rfl)]
      rfl
    · obtain ⟨t, ht⟩ : ∃ t, totalBatches N = t + 1 :=
        ⟨totalBatches N - 1, by unfold totalBatches; omega⟩
      rw [ht, loopFrom]
      by_cases hab0 : ab 0 = true
      · rw [if_pos hab0, if_pos (Or.inl hab0)]
        rfl
      · rw [if_neg hab0]
        rw [if_neg (show ¬ (ab 0 = true ∨ N = 0) from fun h => h.elim hab0 hN)]
        rw [if_neg (show ¬ promptsToGenerate N
            initialRunState.accumulatedPrompts.length ≤ 0 by
          simp only [initialRunState]
          unfold promptsToGenerate
          simp only [List.length_nil]
          omega)]
        have hcall : batchCallAt N 0 initialRunState.accumulatedPrompts =
            batchCallAt N 0 [] := rfl
        rw [hcall]
        cases heq : res 0 (batchCallAt N 0 []) with
        | failure isAbort => rfl
        | success r =>
          obtain ⟨hs, hu⟩ := loopFrom_labels_frozen N ab res t 1
            { initialRunState with
              calls := initialRunState.calls ++ [batchCallAt N 0 []]
              identifiedStyle := some r.identifiedStyle
              identifiedSubject := some r.identifiedSubject
              accumulatedPrompts := initialRunState.accumulatedPrompts ++ r.prompts
              prompts := initialRunState.prompts ++ r.prompts
              batchPrompts := initialRunState.batchPrompts ++ [r.prompts]
              lens := initialRunState.lens ++
                [initialRunState.accumulatedPrompts.length + r.prompts.length] }
            (by omega)
          rw [Prod.mk.injEq]
          exact ⟨hs.trans rfl, hu.trans rfl⟩
  refine ⟨hmain, ?_⟩
  rw [Prod.mk.injEq] at hmain
  obtain ⟨hs, hu⟩ := hmain
  by_cases hc : ab 0 = true ∨ N = 0
  · rw [if_pos hc] at hs hu
    rw [hs, hu]
  · rw [if_neg hc] at hs hu
    cases heq : res 0 (batchCallAt N 0 []) with
    | failure isAbort =>
      rw [heq] at hs hu
      rw [hs, hu]
    | success r =>
      rw [heq] at hs hu
      rw [hs, hu]
      simp

/-- Claim C4 (witness): a concrete run whose first batch succeeds with
style label `s` ends with `identifiedStyle = some s`. -/
theorem identified_labels_first_batch_only_witness :
    (handleGeneratePrompts 10 neverAborted
        singlePromptResults).identifiedStyle = some "s" := by
  have h := (identified_labels_first_batch_only 10 neverAborted
    singlePromptResults).1
  exact (congrArg Prod.fst h).trans rfl

/-- Loop fact behind Claim C6: once the (monotone) signal is raised at
batch boundary `k`, a loop entered at index `i ≤ k` with `i` calls already
logged never logs more than `k` calls in total. -/
theorem loopFrom_calls_le (N : Nat) (ab : Nat → Bool)
    (res : Nat → BatchCall → BatchOutcome) (k : Nat)
    (hmono : ∀ i j, i ≤ j → ab i = true → ab j = true)
    (hk : ab k = true) :
    ∀ rb i st, st.calls.length = i → i ≤ k →
      (loopFrom N ab res i rb st).calls.length ≤ k := by
  intro rb
  induction rb with
  | zero =>
    intro i st hc hik
    simp only [loopFrom]
    omega
  | succ rb ih =>
    intro i st hc hik
    rw [loopFrom]
    split
    · simp only []
      omega
    · rename_i habi
      have hlt : i < k := by
        rcases Nat.lt_or_ge i k with h | h
        · exact h
        · exact absurd (hmono k i h hk) habi
      split
      · simp only []
        omega
      · split
        · rename_i x isAbort heq
          simp only [List.length_append, List.length_singleton]
          omega
        · rename_i x r heq
          refine ih (i + 1) _ ?_ (by omega)
          simp only [List.length_append, List.length_singleton]
          omega

/-- Claim C6: with a monotone cancellation signal raised at batch boundary
`k`, no batch call with index at or beyond `k` is ever started (at most `k`
calls are logged); in particular raising the signal before batch 0 yields
zero client calls, an empty accumulated list, and terminal status
`Cancelled` (for any positive target count). -/
theorem cancellation_stops_calls (N : Nat) (ab : Nat → Bool)
    (res : Nat → BatchCall → BatchOutcome) (k : Nat)
    (hmono : ∀ i j, i ≤ j → ab i = true → ab j = true)
    (hk : ab k = true) :
    (handleGeneratePrompts N ab res).calls.length ≤ k ∧
      (ab 0 = true → 1 ≤ N →
        (handleGeneratePrompts N ab res).calls = [] ∧
          (handleGeneratePrompts N ab res).status = .Cancelled ∧
          (handleGeneratePrompts N ab res).accumulatedPrompts = []) := by
  constructor
  · unfold handleGeneratePrompts
    exact loopFrom_calls_le N ab res k hmono hk (totalBatches N) 0
      initialRunState rfl (Nat.zero_le k)
  · intro hab0 hN
    obtain ⟨t, ht⟩ : ∃ t, totalBatches N = t + 1 :=
      ⟨totalBatches N - 1, by unfold totalBatches; omega⟩
    unfold handleGeneratePrompts
    rw [ht, loopFrom, if_pos hab0]
    exact ⟨rfl, rfl, rfl⟩

/-- Claim C6 (witness): with the signal already raised before the run, a
10-prompt run issues no call and ends `Cancelled` with nothing
accumulated. -/
theorem cancellation_stops_calls_witness :
    (handleGeneratePrompts 10 alwaysAborted singlePromptResults).calls = [] ∧
      (handleGeneratePrompts 10 alwaysAborted
          singlePromptResults).status = .Cancelled ∧
      (handleGeneratePrompts 10 alwaysAborted
          singlePromptResults).accumulatedPrompts = [] :=
  (cancellation_stops_calls 10 alwaysAborted singlePromptResults 0
    (fun i j h hj => rfl) rfl).2 rfl (by norm_num)

/-- Claim C10: if the cancellation signal is raised while the call of any
batch `k` is in flight — the check before batch `k` read false, every
later check reads true — and that call is issued (its batch size is
positive) and succeeds with result `r`, then the loop still appends `r`'s
prompts to the accumulated list and publishes them to the display when the
call completes, logs batch `k`'s call and no further one, and sets no
error: cancellation only takes effect at the check preceding the next
batch, so the accumulated list grows after the user cancels.  Quantifying
over the loop state `st` covers the in-flight batch of every run at every
batch index `k`, whatever the earlier batches returned; when another loop
iteration was scheduled the run ends `Cancelled` at its abort check, and
when batch `k` was the last scheduled iteration the loop simply ends. -/
theorem inflight_cancellation_still_appends (N : Nat) (ab : Nat → Bool)
    (res : Nat → BatchCall → BatchOutcome) (r : GenResult) (k : Nat)
    (st : RunState) (rb : Nat)
    (habk : ab k = false)
    (habs : ∀ i, k < i → ab i = true)
    (hptg : ¬ promptsToGenerate N st.accumulatedPrompts.length ≤ 0)
    (hres : res k (batchCallAt N k st.accumulatedPrompts) = .success r) :
    (loopFrom N ab res k (rb + 1) st).accumulatedPrompts =
        st.accumulatedPrompts ++ r.prompts ∧
      (loopFrom N ab res k (rb + 1) st).prompts = st.prompts ++ r.prompts ∧
      (loopFrom N ab res k (rb + 1) st).calls =
        st.calls ++ [batchCallAt N k st.accumulatedPrompts] ∧
      (loopFrom N ab res k (rb + 1) st).error = st.error ∧
      (loopFrom N ab res k (rb + 1) st).status =
        (if rb = 0 then RunStatus.Succeeded else RunStatus.Cancelled) := by
  rw [loopFrom]
  rw [if_neg (by simp [habk])]
  rw [if_neg hptg]
  simp only [hres]
  cases rb with
  | zero =>
    exact ⟨rfl, rfl, rfl, rfl, rfl⟩
  | succ m =>
    rw [loopFrom, if_pos (habs (k + 1) (Nat.lt_succ_self k))]
    exact ⟨rfl, rfl, rfl, rfl, by simp⟩

/-- Claim C10 (witness): the sole batch of a 5-prompt run, cancelled while
its call is in flight: the prompt it returns is still appended and
displayed even though the signal was raised during the call. -/
theorem inflight_cancellation_still_appends_witness :
    (handleGeneratePrompts 5 cancelDuringFirst
        singlePromptResults).accumulatedPrompts = ["x"] ∧
      (handleGeneratePrompts 5 cancelDuringFirst
          singlePromptResults).prompts = ["x"] :=
  have h := inflight_cancellation_still_appends 5 cancelDuringFirst
    singlePromptResults
    { prompts := ["x"], identifiedStyle := "s", identifiedSubject := "u" }
    0 initialRunState 0 rfl (fun i hi => decide_eq_true hi) (by decide) rfl
  ⟨h.1, h.2.1⟩

/-- Loop invariant behind Claim C5: starting from a clean error slot with
one logged call and one logged prompt list per completed batch, a `Failed`
end state carries exactly the generic message and one more call than
successful batches (the failing call, with nothing attempted after it),
keeps every accumulated prompt, and keeps the display in sync; `Cancelled`
and `Succeeded` end states carry no error. -/
theorem loopFrom_error_policy (N : Nat) (ab : Nat → Bool)
    (res : Nat → BatchCall → BatchOutcome) :
    ∀ rb i st,
      st.error = none →
      st.calls.length = st.batchPrompts.length →
      st.accumulatedPrompts = st.batchPrompts.flatten →
      st.prompts = st.accumulatedPrompts →
      ((loopFrom N ab res i rb st).status = .Failed →
          (loopFrom N ab res i rb st).error = some genericErrorMessage ∧
            (loopFrom N ab res i rb st).calls.length =
              (loopFrom N ab res i rb st).batchPrompts.length + 1 ∧
            (loopFrom N ab res i rb st).accumulatedPrompts =
              (loopFrom N ab res i rb st).batchPrompts.flatten ∧
            (loopFrom N ab res i rb st).prompts =
              (loopFrom N ab res i rb st).accumulatedPrompts) ∧
        ((loopFrom N ab res i rb st).status = .Cancelled →
          (loopFrom N ab res i rb st).error = none) ∧
        ((loopFrom N ab res i rb st).status = .Succeeded →
          (loopFrom N ab res i rb st).error = none) := by
  intro rb
  induction rb with
  | zero =>
    intro i st he hc ha hp
    exact ⟨(fun h => nomatch h), (fun h => nomatch h), (fun _ => he)⟩
  | succ rb ih =>
    intro i st he hc ha hp
    rw [loopFrom]
    split
    · exact ⟨(fun h => nomatch h), (fun _ => he), (fun h => nomatch h)⟩
    · split
      · exact ⟨(fun h => nomatch h), (fun h => nomatch h), (fun _ => he)⟩
      · split
        · rename_i x isAbort heq
          cases isAbort with
          | false =>
            refine ⟨(fun _ => ⟨rfl, ?_, ha, hp⟩), (fun h => nomatch h),
              (fun h => nomatch h)⟩
            simp [hc]
          | true =>
            exact ⟨(fun h => nomatch h), (fun _ => rfl), (fun h => nomatch h)⟩
        · rename_i x r heq
          refine ih (i + 1) _ he (by simp [hc]) ?_ (by rw [hp])
          rw [List.flatten_append]
          simp [ha]

/-- Claim C5: in every run, a `Failed` end (some batch call threw a
non-abort error) carries exactly one generic user-facing message, logs the
failing call as the last one (no batch call is attempted after it), keeps
every prompt accumulated from the earlier, successful batches, and keeps
them displayed; a cancelled run carries no error message at all. -/
theorem failure_aborts_run (N : Nat) (ab : Nat → Bool)
    (res : Nat → BatchCall → BatchOutcome) :
    ((handleGeneratePrompts N ab res).status = .Failed →
        (handleGeneratePrompts N ab res).error = some genericErrorMessage ∧
          (handleGeneratePrompts N ab res).calls.length =
            (handleGeneratePrompts N ab res).batchPrompts.length + 1 ∧
          (handleGeneratePrompts N ab res).accumulatedPrompts =
            (handleGeneratePrompts N ab res).batchPrompts.flatten ∧
          (handleGeneratePrompts N ab res).prompts =
            (handleGeneratePrompts N ab res).accumulatedPrompts) ∧
      ((handleGeneratePrompts N ab res).status = .Cancelled →
        (handleGeneratePrompts N ab res).error = none) ∧
      ((handleGeneratePrompts N ab res).status = .Succeeded →
        (handleGeneratePrompts N ab res).error = none) :=
  loopFrom_error_policy N ab res (totalBatches N) 0 initialRunState rfl rfl rfl rfl

/-- Claim C5 (witness): a 10-prompt run whose second batch throws ends
`Failed` with the generic message and exactly two logged calls — the
successful first batch and the failing second one. -/
theorem failure_aborts_run_witness :
    (handleGeneratePrompts 10 neverAborted failSecondResults).error =
        some genericErrorMessage ∧
      (handleGeneratePrompts 10 neverAborted
          failSecondResults).calls.length = 2 := by
  obtain ⟨h1, h2, h3, h4⟩ :=
    (failure_aborts_run 10 neverAborted failSecondResults).1 (by decide)
  exact ⟨h1, by rw [h2]; decide⟩

/-- Loop invariant behind Claim C3: provided the logs are aligned (one
call and one prompt list per completed batch, accumulated = concatenation
of the logged batches, next loop index = number of logged calls) and every
logged call already satisfies the exclusion property, every call logged by
the rest of the loop does too: index 0 gets no exclusion list, index
`j > 0` gets exactly the concatenation of the prompts of batches
`0..j-1`. -/
theorem loopFrom_exclusions (N : Nat) (ab : Nat → Bool)
    (res : Nat → BatchCall → BatchOutcome) :
    ∀ rb i st,
      st.calls.length = i →
      st.batchPrompts.length = i →
      st.accumulatedPrompts = st.batchPrompts.flatten →
      (∀ j (hj : j < st.calls.length),
        (st.calls[j]).existingPrompts =
          if j = 0 then none else some ((st.batchPrompts.take j).flatten)) →
      ∀ j (hj : j < (loopFrom N ab res i rb st).calls.length),
        ((loopFrom N ab res i rb st).calls[j]).existingPrompts =
          if j = 0 then none
          else some (((loopFrom N ab res i rb st).batchPrompts.take j).flatten) := by
  intro rb
  induction rb with
  | zero =>
    intro i st hcl hbp hacc hinv
    exact hinv
  | succ rb ih =>
    intro i st hcl hbp hacc hinv
    rw [loopFrom]
    split
    · exact hinv
    · split
      · exact hinv
      · split
        · rename_i x isAbort heq
          intro j hj
          by_cases hji : j < st.calls.length
          · rw [List.getElem_append_left hji]
            exact hinv j hji
          · have hj_eq : j = st.calls.length := by
              simp only [List.length_append, List.length_singleton] at hj
              omega
            rw [List.getElem_concat_length _ _ _ hj_eq]
            simp only [batchCallAt]
            have hji0 : j = i := by omega
            by_cases hi0 : i = 0
            · rw [if_pos (by omega : i = 0), if_pos (by omega : j = 0)]
            · rw [if_neg hi0, if_neg (by omega : ¬ j = 0)]
              rw [hacc, hji0]
              rw [show st.batchPrompts.take i = st.batchPrompts from by
                rw [← hbp]; exact List.take_length _]
        · rename_i x r heq
          refine ih (i + 1) _ (by simp [hcl]) (by simp [hbp]) ?_ ?_
          · rw [List.flatten_append]
            simp [hacc]
          · intro j hj
            by_cases hji : j < st.calls.length
            · rw [List.getElem_append_left hji, hinv j hji]
              by_cases hj0 : j = 0
              · rw [if_pos hj0, if_pos hj0]
              · rw [if_neg hj0, if_neg hj0]
                rw [List.take_append_of_le_length (by omega : j ≤ st.batchPrompts.length)]
            · have hj_eq : j = st.calls.length := by
                simp only [List.length_append, List.length_singleton] at hj
                omega
              rw [List.getElem_concat_length _ _ _ hj_eq]
              simp only [batchCallAt]
              have hji0 : j = i := by omega
              by_cases hi0 : i = 0
              · rw [if_pos (by omega : i = 0), if_pos (by omega : j = 0)]
              · rw [if_neg hi0, if_neg (by omega : ¬ j = 0)]
                rw [hacc, hji0]
                rw [List.take_append_of_le_length (by omega : i ≤ st.batchPrompts.length)]
                rw [show st.batchPrompts.take i = st.batchPrompts from by
                  rw [← hbp]; exact List.take_length _]

/-- Claim C3: in every run, the call logged at batch index 0 carries no
exclusion list (the argument is `undefined`), and the call at every index
`j > 0` carries exactly the full accumulated list of prompts produced by
batches `0..j-1`. -/
theorem excludedPrompts_exact (N : Nat) (ab : Nat → Bool)
    (res : Nat → BatchCall → BatchOutcome) :
    ∀ j (hj : j < (handleGeneratePrompts N ab res).calls.length),
      ((handleGeneratePrompts N ab res).calls[j]).existingPrompts =
        if j = 0 then none
        else some
          (((handleGeneratePrompts N ab res).batchPrompts.take j).flatten) :=
  loopFrom_exclusions N ab res (totalBatches N) 0 initialRunState rfl rfl rfl
    (fun j hj => absurd hj (Nat.not_lt_zero j))

/-- Claim C3 (witness): in the concrete 12-prompt exactly-delivering run,
the second call's exclusion list is precisely the five prompts of
batch 0. -/
theorem excludedPrompts_exact_witness :
    ((handleGeneratePrompts 12 neverAborted exactResults).calls.get
        ⟨1, by decide⟩).existingPrompts = some (List.replicate 5 "prompt") := by
  have h := excludedPrompts_exact 12 neverAborted exactResults 1 (by decide)
  exact h.trans (by decide)

end ImagePromptGen
